import Mathlib

/-!
Verification development for the auxiliary Python scripts of the
vscode-jupyter repository.  Each Python helper is shallow-embedded as a
Lean function over explicit data models; machine behaviour that raises
exceptions is modelled with Option/Except.  The theorems at the end of
the file settle the frozen claims about these scripts.
-/

namespace Interrupt

/-! Shallow embedding of pythonFiles/vscode_datascience_helpers/kernel_interrupt_daemon.py.
    Windows handles are modelled as integers; the OS calls CreateEventA /
    DuplicateHandle are modelled by a fresh-handle counter; winapi.SetEvent,
    winapi.CloseHandle and the logging calls are modelled as emitted actions. -/

/-- An observable action of the interrupt daemon: a SetEvent call on an event
handle, a CloseHandle call, or one of the log messages. -/
inductive DaemonAction where
  | setEvent (event : Int)
  | warnHandleNotFound (handle : Int)
  | closeEvent (event : Int)
  | warnUnknown (line : String)
  | logError (line : String)
deriving DecidableEq

/-- State of PythonKernelInterrupter: the interrupt_handles dict (dupe handle
to event handle, most recent first) plus a counter supplying fresh OS handles. -/
structure DaemonState where
  interrupt_handles : List (Int × Int)
  nextHandle : Int
deriving DecidableEq

/-- State right after PythonKernelInterrupter.__init__: an empty handle map. -/
def initState : DaemonState := { interrupt_handles := [], nextHandle := 1 }

/-- Lookup in the interrupt_handles dict (membership test plus access). -/
def lookupHandle (m : List (Int × Int)) (h : Int) : Option Int :=
  match m with
  | [] => Option.none
  | (k, v) :: rest => if k = h then some v else lookupHandle rest h

/-- PythonKernelInterrupter.initialize_interrupt: creates an event handle,
duplicates it for the parent process, stores dupe -> event in
interrupt_handles and returns the dupe handle value. -/
def initialize_interrupt (s : DaemonState) : DaemonState × Int :=
  let event := s.nextHandle
  let dupe := s.nextHandle + 1
  ({ interrupt_handles := (dupe, event) :: s.interrupt_handles,
     nextHandle := s.nextHandle + 2 }, dupe)

/-- PythonKernelInterrupter.interrupt: SetEvent on the stored event handle when
the given handle is a key of interrupt_handles, otherwise only a warning. -/
def interrupt (s : DaemonState) (h : Int) : DaemonAction :=
  match lookupHandle s.interrupt_handles h with
  | some ev => DaemonAction.setEvent ev
  | Option.none => DaemonAction.warnHandleNotFound h

/-- PythonKernelInterrupter.close_interrupt_handle: CloseHandle on the stored
event handle when present, nothing otherwise; the map entry is not removed. -/
def close_interrupt_handle (s : DaemonState) (h : Int) : List DaemonAction :=
  match lookupHandle s.interrupt_handles h with
  | some ev => [DaemonAction.closeEvent ev]
  | Option.none => []

/-- Commands of the daemon at the semantic level. -/
inductive Cmd where
  | initCmd
  | interruptCmd (h : Int)
  | kill (h : Int)
deriving DecidableEq

/-- Run a list of semantic commands from a state; only initialize_interrupt
changes the interrupt_handles map. -/
def runCmds (s : DaemonState) : List Cmd → DaemonState
  | [] => s
  | Cmd.initCmd :: cs => runCmds (initialize_interrupt s).1 cs
  | Cmd.interruptCmd _ :: cs => runCmds s cs
  | Cmd.kill _ :: cs => runCmds s cs

/-- The dupe handles returned by the initialize_interrupt calls of a run. -/
def returnedHandles (s : DaemonState) : List Cmd → List Int
  | [] => []
  | Cmd.initCmd :: cs =>
    (initialize_interrupt s).2 :: returnedHandles (initialize_interrupt s).1 cs
  | Cmd.interruptCmd _ :: cs => returnedHandles s cs
  | Cmd.kill _ :: cs => returnedHandles s cs

/-- Whitespace characters stripped by str.strip(). -/
def isSpaceChar (c : Char) : Bool :=
  c = ' ' || c = '\t' || c = '\n' || c = '\r' || c = Char.ofNat 11 || c = Char.ofNat 12

/-- Model of str.strip(): drop whitespace from both ends of the line. -/
def pyStrip (s : List Char) : List Char :=
  ((s.dropWhile isSpaceChar).reverse.dropWhile isSpaceChar).reverse

/-- Model of str.startswith over character lists. -/
def startsWithL (s pre : List Char) : Bool := pre.isPrefixOf s

/-- Model of line.split(":"): split at every colon, keeping empty fields. -/
def splitOnColon : List Char → List (List Char)
  | [] => [[]]
  | c :: rest =>
    let r := splitOnColon rest
    if c = ':' then [] :: r
    else
      match r with
      | [] => [[c]]
      | g :: gs => (c :: g) :: gs

/-- Decimal value of a nonempty digit string; Option.none on any non-digit. -/
def digitsValAux : List Char → Nat → Option Nat
  | [], acc => some acc
  | c :: rest, acc =>
    if '0' ≤ c ∧ c ≤ '9' then digitsValAux rest (acc * 10 + (c.toNat - 48))
    else Option.none

/-- Model of Python int(str): strip whitespace, then an optional sign followed
by at least one decimal digit; ValueError is Option.none. -/
def pyInt? (s : List Char) : Option Int :=
  match pyStrip s with
  | [] => Option.none
  | '-' :: ds =>
    match ds with
    | [] => Option.none
    | _ => (digitsValAux ds 0).map (fun n => -(n : Int))
  | '+' :: ds =>
    match ds with
    | [] => Option.none
    | _ => (digitsValAux ds 0).map (fun n => (n : Int))
  | ds => (digitsValAux ds 0).map (fun n => (n : Int))

/-- Model of line.split(":")[i] followed by int(...): IndexError on a missing
field and ValueError on a malformed one both become Option.none. -/
def parseIntField (line : List Char) (i : Nat) : Option Int :=
  ((splitOnColon line).get? i).bind pyInt?

/-- One iteration of the main loop of the daemon on one stdin line: the line is
stripped, dispatched on its prefix, and any exception inside the try block is
caught and logged (logError) without stopping the loop.  Returns the new
state, the lines printed to stdout, and the emitted actions. -/
def handleLine (s : DaemonState) (rawLine : List Char) :
    DaemonState × List String × List DaemonAction :=
  let line := pyStrip rawLine
  if startsWithL line "INITIALIZE_INTERRUPT:".toList then
    match parseIntField line 1 with
    | some n =>
      ((initialize_interrupt s).1,
       ["INITIALIZE_INTERRUPT:" ++ toString n ++ ":" ++
          toString (initialize_interrupt s).2], [])
    | Option.none => ((initialize_interrupt s).1, [], [DaemonAction.logError (String.mk line)])
  else if startsWithL line "INTERRUPT:".toList then
    match parseIntField line 2 with
    | some h =>
      match parseIntField line 1 with
      | some n => (s, ["INTERRUPT:" ++ toString n], [interrupt s h])
      | Option.none => (s, [], [interrupt s h, DaemonAction.logError (String.mk line)])
    | Option.none => (s, [], [DaemonAction.logError (String.mk line)])
  else if startsWithL line "KILL_INTERRUPT:".toList then
    match parseIntField line 2 with
    | some h =>
      match parseIntField line 1 with
      | some n => (s, ["KILL_INTERRUPT:" ++ toString n], close_interrupt_handle s h)
      | Option.none => (s, [], close_interrupt_handle s h ++ [DaemonAction.logError (String.mk line)])
    | Option.none => (s, [], [DaemonAction.logError (String.mk line)])
  else
    (s, [], [DaemonAction.warnUnknown (String.mk line)])

/-- The main loop of the daemon over the list of stdin lines: every line is
handled in turn, outputs and actions are concatenated in order. -/
def runDaemon (s : DaemonState) : List (List Char) → DaemonState × List String × List DaemonAction
  | [] => (s, [], [])
  | l :: ls =>
    let r := handleLine s l
    let rest := runDaemon r.1 ls
    (rest.1, r.2.1 ++ rest.2.1, r.2.2 ++ rest.2.2)

end Interrupt

namespace VarInfo

/-! Shallow embedding of
    pythonFiles/vscode_datascience_helpers/getVariableInfo/vscodeGetVariablesForProvider.py
    and the corresponding helpers of vscodeGetVariableInfo.py.  Python values
    are modelled by the inductive PyValue; Python strings are modelled as
    lists of characters (Python len counts characters). -/

/-- Model of the Python values these scripts inspect: None, booleans, ints,
strings, lists, tuples, sets (with their iteration order), dicts with string
keys, and plain objects carrying a class name and an instance dict. -/
inductive PyValue where
  | pynone
  | pybool (b : Bool)
  | pyint (i : Int)
  | pystr (s : List Char)
  | pylist (xs : List PyValue)
  | pytuple (xs : List PyValue)
  | pyset (xs : List PyValue)
  | pydict (entries : List (List Char × PyValue))
  | pyobj (cls : List Char) (attrs : List (List Char × PyValue))

/-- maxStringLength constant of both scripts. -/
def maxStringLength : Nat := 1000

/-- arrayPageSize constant of both scripts. -/
def arrayPageSize : Nat := 50

/-- collectionTypes constant of both scripts. -/
def collectionTypes : List (List Char) :=
  ["list".toList, "tuple".toList, "set".toList]

/-- typesToExclude constant of the provider script. -/
def typesToExclude : List (List Char) :=
  ["module".toList, "function".toList, "method".toList, "class".toList, "type".toList]

/-- Python type(v).__name__ restricted to the modelled value universe. -/
def typeName : PyValue → List Char
  | PyValue.pynone => "NoneType".toList
  | PyValue.pybool _ => "bool".toList
  | PyValue.pyint _ => "int".toList
  | PyValue.pystr _ => "str".toList
  | PyValue.pylist _ => "list".toList
  | PyValue.pytuple _ => "tuple".toList
  | PyValue.pyset _ => "set".toList
  | PyValue.pydict _ => "dict".toList
  | PyValue.pyobj cls _ => cls

/-- Python hasattr(v, "__len__") on the modelled universe. -/
def hasLen : PyValue → Bool
  | PyValue.pystr _ => true
  | PyValue.pylist _ => true
  | PyValue.pytuple _ => true
  | PyValue.pyset _ => true
  | PyValue.pydict _ => true
  | _ => false

/-- Python len(v) on the values that have a length. -/
def pyLen : PyValue → Nat
  | PyValue.pystr s => s.length
  | PyValue.pylist xs => xs.length
  | PyValue.pytuple xs => xs.length
  | PyValue.pyset xs => xs.length
  | PyValue.pydict es => es.length
  | _ => 0

/-- The single-quote character used by Python repr of strings. -/
def quoteChar : Char := Char.ofNat 39

/-- Opening brace character. -/
def lbrace : Char := Char.ofNat 123

/-- Closing brace character. -/
def rbrace : Char := Char.ofNat 125

mutual

/-- Python repr on the modelled universe.  Strings are rendered between single
quotes (escaping of special characters inside them is not modelled); the
memory address inside the default object repr is elided. -/
def reprPy : PyValue → List Char
  | PyValue.pynone => "None".toList
  | PyValue.pybool b => if b then "True".toList else "False".toList
  | PyValue.pyint i => (toString i).toList
  | PyValue.pystr s => quoteChar :: s ++ [quoteChar]
  | PyValue.pylist xs => '[' :: reprSeq xs ++ [']']
  | PyValue.pytuple xs =>
    '(' :: reprSeq xs ++ (if xs.length = 1 then ",)".toList else [')'])
  | PyValue.pyset xs =>
    if xs.isEmpty then "set()".toList else lbrace :: reprSeq xs ++ [rbrace]
  | PyValue.pydict es => lbrace :: reprEntries es ++ [rbrace]
  | PyValue.pyobj cls _ => '<' :: cls ++ " object>".toList

/-- Comma-separated reprs of the elements of a sequence. -/
def reprSeq : List PyValue → List Char
  | [] => []
  | [x] => reprPy x
  | x :: rest => reprPy x ++ ", ".toList ++ reprSeq rest

/-- Comma-separated key: value reprs of the entries of a dict; keys are
rendered between single quotes like repr of a string. -/
def reprEntries : List (List Char × PyValue) → List Char
  | [] => []
  | [(k, v)] => quoteChar :: k ++ [quoteChar] ++ ": ".toList ++ reprPy v
  | (k, v) :: rest =>
    quoteChar :: k ++ [quoteChar] ++ ": ".toList ++ reprPy v ++ ", ".toList ++ reprEntries rest

end

/-- truncateString of the provider script: the repr of the variable, truncated
to its first maxStringLength - 1 characters plus an ellipsis when longer than
maxStringLength, with a length suffix appended for values of type str. -/
def truncateString (var : PyValue) : List Char :=
  let string := reprPy var
  if string.length > maxStringLength then
    let sizeInfo : List Char :=
      match var with
      | PyValue.pystr s => "\n\nLength: ".toList ++ (toString s.length).toList
      | _ => []
    string.take (maxStringLength - 1) ++ "...".toList ++ sizeInfo
  else string

/-- truncateString of vscodeGetVariableInfo.py: same truncation applied to an
already computed repr string, without the length suffix. -/
def truncateStringInfo (string : List Char) : List Char :=
  if string.length > maxStringLength then
    string.take (maxStringLength - 1) ++ "...".toList
  else string

/-- getValue of the provider script.  The pandas display-option save/restore
around the repr call only affects how a live DataFrame prints itself and is a
no-op on the modelled universe, so getValue reduces to truncateString. -/
def getValue (var : PyValue) : List Char := truncateString var

/-- The character-length of the length suffix that truncateString appends for
values of type str (and of the empty suffix otherwise). -/
def sizeInfoLen : PyValue → Nat
  | PyValue.pystr s => "\n\nLength: ".toList.length + (toString s.length).length
  | _ => 0

/-- Result dict of getVariableDescription, as a structure: the keys the
function writes are type, interfaces, count (only for sized collections),
hasNamedChildren and value. -/
structure VariableDescription where
  type : List Char
  interfaces : List (List Char)
  count : Option Nat
  hasNamedChildren : Bool
  value : List Char

/-- Python hasattr(v, "__dict__") on the modelled universe: only plain objects
carry an instance dict. -/
def hasDunderDict : PyValue → Bool
  | PyValue.pyobj _ _ => true
  | _ => false

/-- Model of [getFullType(t) for t in type(v).__mro__]: the method resolution
order of every modelled type is its own name followed by object. -/
def mroNames (v : PyValue) : List (List Char) :=
  [typeName v, "object".toList]

/-- getVariableDescription of the provider script: type name, interfaces from
the mro, a count for sized values whose type is list, tuple or set, the
hasNamedChildren flag, and the truncated repr as value. -/
def getVariableDescription (var : PyValue) : VariableDescription :=
  { type := typeName var
    interfaces := mroNames var
    count :=
      if hasLen var ∧ typeName var ∈ collectionTypes then some (pyLen var)
      else Option.none
    hasNamedChildren :=
      hasDunderDict var || (match var with | PyValue.pydict _ => true | _ => false)
    value := getValue var }

/-- One step of a property chain: an integer index or a property name. -/
inductive PyProp where
  | idx (i : Int)
  | fld (s : List Char)

/-- Outcome of one traversal step of getChildProperty: a value, the explicit
return None paths, or a raised exception. -/
inductive StepRes where
  | ok (v : PyValue)
  | noneRes
  | exn

/-- Python hasattr(v, "__getitem__") on the modelled universe: strings, lists,
tuples and dicts are subscriptable, sets and the rest are not. -/
def hasGetitem : PyValue → Bool
  | PyValue.pystr _ => true
  | PyValue.pylist _ => true
  | PyValue.pytuple _ => true
  | PyValue.pydict _ => true
  | _ => false

/-- Python sequence indexing with negative indices measured from the end;
Option.none is an IndexError. -/
def listIndex {α : Type} (xs : List α) (i : Int) : Option α :=
  let j := if i < 0 then i + xs.length else i
  if 0 ≤ j then xs.get? j.toNat else Option.none

/-- Attribute lookup in an instance dict (Python getattr after hasattr). -/
def lookupAttr (attrs : List (List Char × PyValue)) (name : List Char) : Option PyValue :=
  match attrs with
  | [] => Option.none
  | (k, v) :: rest => if k = name then some v else lookupAttr rest name

/-- One iteration of the loop body of getChildProperty (identical in both
scripts): an int property uses subscription when available, converts a set to
a list first, and otherwise returns None; a name property uses getattr when
the attribute exists, then a dict key, and otherwise returns None; a failing
subscription raises. -/
def stepEval (var : PyValue) (p : PyProp) : StepRes :=
  match p with
  | PyProp.idx i =>
    if hasGetitem var then
      match var with
      | PyValue.pystr s =>
        match listIndex s i with
        | some c => StepRes.ok (PyValue.pystr [c])
        | Option.none => StepRes.exn
      | PyValue.pylist xs =>
        match listIndex xs i with
        | some v => StepRes.ok v
        | Option.none => StepRes.exn
      | PyValue.pytuple xs =>
        match listIndex xs i with
        | some v => StepRes.ok v
        | Option.none => StepRes.exn
      | _ => StepRes.exn
    else
      match var with
      | PyValue.pyset xs =>
        match listIndex xs i with
        | some v => StepRes.ok v
        | Option.none => StepRes.exn
      | _ => StepRes.noneRes
  | PyProp.fld name =>
    match var with
    | PyValue.pyobj _ attrs =>
      match lookupAttr attrs name with
      | some v => StepRes.ok v
      | Option.none => StepRes.noneRes
    | PyValue.pydict es =>
      match lookupAttr es name with
      | some v => StepRes.ok v
      | Option.none => StepRes.noneRes
    | _ => StepRes.noneRes

/-- The loop of getChildProperty threading the current variable through the
chain; Except.error is an exception escaping the loop, Except.ok Option.none
is one of the explicit return None paths. -/
def goChain (var : PyValue) : List PyProp → Except Unit (Option PyValue)
  | [] => Except.ok (some var)
  | p :: rest =>
    match stepEval var p with
    | StepRes.ok v => goChain v rest
    | StepRes.noneRes => Except.ok Option.none
    | StepRes.exn => Except.error ()

/-- getChildProperty of the provider script: the loop wrapped in
try/except Exception: return None, so an escaping exception also yields None
(the returned Python None is modelled by Option.none). -/
def getChildProperty (root : PyValue) (propertyChain : List PyProp) : Option PyValue :=
  match goChain root propertyChain with
  | Except.ok r => r
  | Except.error _ => Option.none

/-- getChildProperty of vscodeGetVariableInfo.py: the same loop with no
try/except, so an exception raised during traversal propagates to the caller. -/
def getChildPropertyInfo (root : PyValue) (propertyChain : List PyProp) :
    Except Unit (Option PyValue) :=
  goChain root propertyChain

/-- Claim-side characterization of chain traversal: follow every step and
return the reached value, with Option.none whenever any step cannot be
followed (for any reason). -/
def followChain (var : PyValue) : List PyProp → Option PyValue
  | [] => some var
  | p :: rest =>
    match stepEval var p with
    | StepRes.ok v => followChain v rest
    | _ => Option.none

/-- Dict of one child description produced by _VSCODE_getAllChildrenDescriptions;
the language key is only present in the indexed-children branch. -/
structure ChildDesc where
  desc : VariableDescription
  name : String
  root : String
  propertyChain : List PyProp
  language : Option String

/-- Lookup of a name in the globals dict of the kernel. -/
def lookupStr {α : Type} (m : List (String × α)) (k : String) : Option α :=
  match m with
  | [] => Option.none
  | (k1, v) :: rest => if k1 = k then some v else lookupStr rest k

/-- Python range(start, stop) over integers, as the list of its elements. -/
def intRange (start stop : Int) : List Int :=
  List.map (fun k : Nat => start + (k : Int)) (List.range (stop - start).toNat)

/-- getPropertyNames of the provider script over the instance dict of an
object: public names first, then single-underscore private names, with
dunder names excluded (Python dir also sorts and adds class attributes;
neither affects which instance attributes appear). -/
def getPropertyNames (attrs : List (List Char × PyValue)) : List (List Char) :=
  let names := attrs.map Prod.fst
  names.filter (fun n => n.head? ≠ some '_') ++
    names.filter (fun n => n.head? = some '_' ∧ n.take 2 ≠ ['_', '_'])

/-- Python "v is None" on the modelled universe. -/
def isNone : PyValue → Bool
  | PyValue.pynone => true
  | _ => false

/-- The parent resolution at the top of _VSCODE_getAllChildrenDescriptions:
the root itself for an empty chain, otherwise getChildProperty, whose Python
None result is the value None. -/
def resolveParent (root : PyValue) (propertyChain : List PyProp) : PyValue :=
  match propertyChain with
  | [] => root
  | _ =>
    match getChildProperty root propertyChain with
    | some v => v
    | Option.none => PyValue.pynone

/-- The provider script _VSCODE_getAllChildrenDescriptions (the final
json.dumps serialization of the children list is elided; the early return []
for a None root is the same empty list).  A missing root name, which would
raise KeyError in globals()[rootVarName], is Option.none. -/
def getAllChildrenDescriptions (globalsMap : List (String × PyValue))
    (rootVarName : String) (propertyChain : List PyProp) (startIndex : Int) :
    Option (List ChildDesc) :=
  match lookupStr globalsMap rootVarName with
  | Option.none => Option.none
  | some root =>
    if isNone root then some []
    else
      let parent := resolveParent root propertyChain
      let parentInfo := getVariableDescription parent
      match parentInfo.count with
      | some n =>
        if 0 < n then
          let lastItem : Int := min (n : Int) (startIndex + (arrayPageSize : Int))
          some ((intRange startIndex lastItem).map (fun i =>
            { desc := getVariableDescription
                (match getChildProperty parent [PyProp.idx i] with
                 | some v => v
                 | Option.none => PyValue.pynone)
              name := toString i
              root := rootVarName
              propertyChain := propertyChain ++ [PyProp.idx i]
              language := some "python" }))
        else some []
      | Option.none =>
        if parentInfo.hasNamedChildren then
          let childrenNames : List (List Char) :=
            match parent with
            | PyValue.pyobj _ attrs => getPropertyNames attrs
            | PyValue.pydict es => es.map Prod.fst
            | _ => []
          some (childrenNames.filterMap (fun prop =>
            match getChildProperty parent [PyProp.fld prop] with
            | Option.none => Option.none
            | some child =>
              if typeName child ∈ typesToExclude then Option.none
              else some
                { desc := getVariableDescription child
                  name := String.mk prop
                  root := rootVarName
                  propertyChain := propertyChain ++ [PyProp.fld prop]
                  language := Option.none }))
        else some []

end VarInfo

namespace DFrame

/-! Shallow embedding of the row-fetch path of
    pythonFiles/vscode_datascience_helpers/dataframes/vscodeDataFrame.py for
    inputs that are already tabular.  A dataframe is a grid of cells; float
    cells are classified as finite (with a rational magnitude), positive
    infinity, negative infinity or NaN, which is all the replace dict of
    _VSCODE_getDataFrameRows distinguishes. -/

/-- One cell of a converted dataframe. -/
inductive PCell where
  | num (q : ℚ)
  | pinf
  | ninf
  | nanv
  | text (s : String)
deriving DecidableEq

/-- A converted dataframe: its rows of cells. -/
abbrev DataFrame : Type := List (List PCell)

/-- Python slice semantics of iloc[start:end] on rows: negative bounds count
from the end and bounds are clamped to the row count. -/
def pySliceList {α : Type} (xs : List α) (start stop : Option Int) : List α :=
  let n : Int := xs.length
  let lo := match start with
    | Option.none => 0
    | some s => if s < 0 then max 0 (n + s) else min s n
  let hi := match stop with
    | Option.none => n
    | some e => if e < 0 then max 0 (n + e) else min e n
  (xs.drop lo.toNat).take (hi - lo).toNat

/-- The _VSCODE_convertToDataFrame call made by _VSCODE_getDataFrameRows for a
value that is already a dataframe (or a list of rows): the final branch
pd.DataFrame(df).iloc[start:end], i.e. a row slice.  The tensor and numpy
conversion branches are outside the modelled universe. -/
def convertToDataFrame (df : DataFrame) (start stop : Option Int) : DataFrame :=
  pySliceList df start stop

/-- The replace dict applied by _VSCODE_getDataFrameRows: np.inf, -np.inf and
np.nan each become their string spelling; every other cell is untouched. -/
def cellReplace : PCell → PCell
  | PCell.pinf => PCell.text "inf"
  | PCell.ninf => PCell.text "-inf"
  | PCell.nanv => PCell.text "nan"
  | c => c

/-- df.replace applied cell-wise over every row. -/
def replaceNonFinite (df : DataFrame) : DataFrame :=
  df.map (List.map cellReplace)

/-- _VSCODE_getDataFrameRows up to the final pandas to_json call: convert (the
requested row slice), then replace the non-finite float values.  The cell
grid of the produced JSON is the value returned here, serialized by
cellToJson below. -/
def getDataFrameRows (df : DataFrame) (start stop : Option Int) : DataFrame :=
  replaceNonFinite (convertToDataFrame df start stop)

/-- JSON values a cell serializes to; a non-finite float cell would serialize
to a token that is not legal JSON, modelled by nonFiniteNumber. -/
inductive JVal where
  | jnum (q : ℚ)
  | jstr (s : String)
  | nonFiniteNumber
deriving DecidableEq

/-- Serialization of one cell by the pandas JSON writer. -/
def cellToJson : PCell → JVal
  | PCell.num q => JVal.jnum q
  | PCell.text s => JVal.jstr s
  | PCell.pinf => JVal.nonFiniteNumber
  | PCell.ninf => JVal.nonFiniteNumber
  | PCell.nanv => JVal.nonFiniteNumber

/-- All cells of a dataframe. -/
def allCells (df : DataFrame) : List PCell := df.flatten

end DFrame

namespace EnvScript

/-! Shallow embedding of pythonFiles/printEnvVariables.py and
    pythonFiles/printEnvVariablesToFile.py.  The environment is an ordered
    association list of variable names to values; the JSON object the scripts
    serialize is modelled as the dict itself (json.dumps of a string-to-string
    dict is injective on it). -/

/-- Lookup of os.getenv over the environment map. -/
def lookupEnv (env : List (String × String)) (k : String) : Option String :=
  match env with
  | [] => Option.none
  | (k1, v) :: rest => if k1 = k then some v else lookupEnv rest k

/-- Assignment os.environ[k] = v: replace the existing entry in place or
append a new one. -/
def setEnv (env : List (String × String)) (k v : String) : List (String × String) :=
  match env with
  | [] => [(k, v)]
  | (k1, v1) :: rest => if k1 = k then (k, v) :: rest else (k1, v1) :: setEnv rest k v

/-- The new PYTHONPATH value computed by both scripts: the old value followed
by a literal semicolon when os.getenv returns a truthy value (set and
non-empty), then the sys.path entries joined by os.pathsep. -/
def pythonPathUpdate (env : List (String × String)) (sysPath : List String)
    (pathsep : String) : String :=
  let existing := match lookupEnv env "PYTHONPATH" with
    | some v => if v = "" then "" else v ++ ";"
    | Option.none => ""
  existing ++ String.intercalate pathsep sysPath

/-- The dict whose json.dumps printEnvVariables.py prints to stdout (after the
marker guid line): os.environ with PYTHONPATH updated. -/
def printEnvVariablesDict (env : List (String × String)) (sysPath : List String)
    (pathsep : String) : List (String × String) :=
  setEnv env "PYTHONPATH" (pythonPathUpdate env sysPath pathsep)

/-- The dict printEnvVariablesToFile.py json.dumps into its target file. -/
def printEnvVariablesToFileDict (env : List (String × String)) (sysPath : List String)
    (pathsep : String) : List (String × String) :=
  setEnv env "PYTHONPATH" (pythonPathUpdate env sysPath pathsep)

/-- The file printEnvVariablesToFile.py writes to: sys.argv[-1], an IndexError
on an empty argv being Option.none. -/
def printEnvVariablesToFileTarget (argv : List String) : Option String :=
  argv.getLast?

/-- Claim-side formula for the new PYTHONPATH: the original value followed by
a semicolon and the joined sys.path entries, or just the joined entries when
PYTHONPATH was unset or empty. -/
def claimedPythonPath (env : List (String × String)) (sysPath : List String)
    (pathsep : String) : String :=
  match lookupEnv env "PYTHONPATH" with
  | some v =>
    if v = "" then String.intercalate pathsep sysPath
    else v ++ ";" ++ String.intercalate pathsep sysPath
  | Option.none => String.intercalate pathsep sysPath

end EnvScript

namespace NormSel

/-! Modelled from the spec: pythonFiles/normalizeSelection.py is not present
    in the source tree; only its tests (pythonFiles/tests/test_normalize_selection.py)
    are.  Following the spec, normalize_lines turns an arbitrary,
    possibly-incomplete highlighted snippet into something independently
    executable and syntactically complete by a kernel.  A snippet is a list of
    source lines, each with an indentation depth and a body; a line whose body
    ends in a colon opens a block, and a block stays open until a line at the
    same or smaller indentation arrives (a blank line closes every open
    block, as it does at a kernel prompt).  normalize_lines appends one blank
    line per block still open at the end of the snippet, and terminates the
    output with a newline, matching the expectations of the tests. -/

/-- One source line of the highlighted snippet. -/
structure SrcLine where
  indent : Nat
  body : String
deriving DecidableEq

/-- A line opens a block exactly when its body ends in a colon. -/
def opensBlock (l : SrcLine) : Bool :=
  match l.body.toList.getLast? with
  | some c => c == ':'
  | Option.none => false

/-- Rendering of a line: its indentation as spaces followed by its body. -/
def renderLine (l : SrcLine) : String :=
  String.mk (List.replicate l.indent ' ') ++ l.body

/-- The blank line appended to terminate open blocks. -/
def blankLine : SrcLine := { indent := 0, body := "" }

/-- Effect of one line on the stack of indentations of open blocks: the line
closes every block at its own indentation or deeper, and pushes a new block
when it ends in a colon. -/
def stackStep (stack : List Nat) (l : SrcLine) : List Nat :=
  let popped := stack.filter (fun d => d < l.indent)
  if opensBlock l then popped ++ [l.indent] else popped

/-- The stack of blocks still open after a list of lines. -/
def openStack (lines : List SrcLine) : List Nat :=
  lines.foldl stackStep []

/-- The number of blocks still open at the end of the snippet. -/
def openDepth (lines : List SrcLine) : Nat :=
  (openStack lines).length

/-- The lines of the normalized output: the snippet followed by one blank
line per block still open. -/
def outputLines (lines : List SrcLine) : List SrcLine :=
  lines ++ List.replicate (openDepth lines) blankLine

/-- Modelled from the spec: normalizeSelection.normalize_lines renders the
output lines joined by newlines, with a terminating newline. -/
def normalize_lines (lines : List SrcLine) : String :=
  String.intercalate "\n" ((outputLines lines).map renderLine) ++ "\n"

end NormSel

namespace Magics

/-! Shallow embedding of the thread-spawn decision in OutStream.__init__ and
    OutStream._setup_stream_redirects of
    pythonFiles/vscMagics/vscodeMagics copy.py. -/

/-- The concurrency-relevant outcome of OutStream.__init__: whether the
watchfd redirection was requested and hence whether _setup_stream_redirects
ran and started the daemon watch_fd_thread. -/
structure OutStreamInit where
  shouldWatch : Bool
  spawnsThread : Bool
deriving DecidableEq

/-- OutStream.__init__: _should_watch is set, and _setup_stream_redirects is
called (starting watch_fd_thread), exactly when watchfd is requested, the
platform starts with linux or darwin, and PYTEST_CURRENT_TEST is not in the
environment. -/
def outStreamInit (watchfd : Bool) (platform : String)
    (pytestCurrentTestSet : Bool) : OutStreamInit :=
  let w := watchfd &&
    (Interrupt.startsWithL platform.toList "linux".toList ||
      Interrupt.startsWithL platform.toList "darwin".toList) &&
    !pytestCurrentTestSet
  { shouldWatch := w, spawnsThread := w }

end Magics


namespace Interrupt

/-- Helper: keys of the handle map after a run are exactly the handles
returned by the initialize_interrupt calls of the run plus the keys already
present. -/
theorem lookup_runCmds_isSome (cs : List Cmd) :
    ∀ (s : DaemonState) (h : Int),
      (lookupHandle (runCmds s cs).interrupt_handles h).isSome = true ↔
        h ∈ returnedHandles s cs ∨ (lookupHandle s.interrupt_handles h).isSome = true := by
  induction cs with
  | nil =>
    intro s h
    simp [runCmds, returnedHandles]
  | cons c cs ih =>
    intro s h
    cases c with
    | initCmd =>
      simp only [runCmds, returnedHandles, List.mem_cons]
      rw [ih]
      have hstep : lookupHandle ((initialize_interrupt s).1).interrupt_handles h =
          if s.nextHandle + 1 = h then some s.nextHandle
          else lookupHandle s.interrupt_handles h := rfl
      rw [hstep]
      by_cases hd : s.nextHandle + 1 = h
      · rw [if_pos hd]
        have heq : h = (initialize_interrupt s).2 := hd.symm
        simp [heq]
      · rw [if_neg hd]
        have hd2 : ¬(h = (initialize_interrupt s).2) := fun hh => hd hh.symm
        tauto
    | interruptCmd h2 =>
      simp only [runCmds, returnedHandles]
      exact ih s h
    | kill h2 =>
      simp only [runCmds, returnedHandles]
      exact ih s h

/-- Claim C5: over any run of the daemon started at the initial state, the
INTERRUPT handler calls SetEvent exactly when the given handle was returned
by a prior initialize_interrupt of the same run (close_interrupt_handle never
removes map entries); for any other handle it only emits the
handle-not-found warning. -/
theorem interrupt_signals_iff_initialized (cs : List Cmd) (h : Int) :
    ((∃ ev, interrupt (runCmds initState cs) h = DaemonAction.setEvent ev) ↔
        h ∈ returnedHandles initState cs)
    ∧ (h ∉ returnedHandles initState cs →
        interrupt (runCmds initState cs) h = DaemonAction.warnHandleNotFound h) := by
  have hiff := lookup_runCmds_isSome cs initState h
  have hnone : lookupHandle initState.interrupt_handles h = Option.none := rfl
  rw [hnone] at hiff
  simp only [Option.isSome_none, Bool.false_eq_true, or_false] at hiff
  constructor
  · constructor
    · rintro ⟨ev, hev⟩
      rw [← hiff]
      unfold interrupt at hev
      cases hlk : lookupHandle (runCmds initState cs).interrupt_handles h with
      | none => rw [hlk] at hev; cases hev
      | some e => simp [hlk]
    · intro hm
      rw [← hiff] at hm
      cases hlk : lookupHandle (runCmds initState cs).interrupt_handles h with
      | none => rw [hlk] at hm; simp at hm
      | some e => exact ⟨e, by simp [interrupt, hlk]⟩
  · intro hm
    rw [← hiff] at hm
    cases hlk : lookupHandle (runCmds initState cs).interrupt_handles h with
    | none => simp [interrupt, hlk]
    | some e => rw [hlk] at hm; exact absurd rfl hm

/-- Witness for C5: after one initialize_interrupt (which returns handle 2),
interrupting with the unknown handle 5 only warns. -/
theorem interrupt_signals_iff_initialized_witness :
    interrupt (runCmds initState [Cmd.initCmd]) 5 = DaemonAction.warnHandleNotFound 5 :=
  (interrupt_signals_iff_initialized [Cmd.initCmd] 5).2 (by decide)

/-- Claim C7 counterexample: the same INTERRUPT line has a different effect
depending on a previously processed command of the same daemon process -
a warning from the initial state, but a SetEvent call after a prior
INITIALIZE_INTERRUPT stored handle 2. -/
theorem daemon_stateless_counterexample :
    (runDaemon initState ["INTERRUPT:5:2".toList]).2.2 = [DaemonAction.warnHandleNotFound 2]
    ∧ (runDaemon initState ["INITIALIZE_INTERRUPT:1".toList, "INTERRUPT:5:2".toList]).2.2 =
        [DaemonAction.setEvent 1] :=
  ⟨rfl, rfl⟩

/-- Helper: the state component produced by one loop iteration is either the
state extended by initialize_interrupt or the unchanged state. -/
theorem handleLine_fst (s : DaemonState) (l : List Char) :
    (handleLine s l).1 = (initialize_interrupt s).1 ∨ (handleLine s l).1 = s := by
  simp only [handleLine]
  cases h1 : startsWithL (pyStrip l) "INITIALIZE_INTERRUPT:".toList <;>
    cases h2 : startsWithL (pyStrip l) "INTERRUPT:".toList <;>
      cases h3 : startsWithL (pyStrip l) "KILL_INTERRUPT:".toList <;>
        cases hp1 : parseIntField (pyStrip l) 1 <;>
          cases hp2 : parseIntField (pyStrip l) 2 <;>
            simp [h1, h2, h3, hp1, hp2]

/-- Claim C7 amended: the kernel interrupt daemon is stateful - every entry of
interrupt_handles persists through the handling of any further stdin lines
(no command removes entries), and the effect of interrupt on a handle differs
between the initial state and the state after an initialize_interrupt. -/
theorem daemon_state_persists_spec :
    (∀ (s : DaemonState) (lines : List (List Char)) (p : Int × Int),
        p ∈ s.interrupt_handles → p ∈ (runDaemon s lines).1.interrupt_handles)
    ∧ interrupt initState 2 = DaemonAction.warnHandleNotFound 2
    ∧ interrupt (runCmds initState [Cmd.initCmd]) 2 = DaemonAction.setEvent 1 := by
  refine ⟨?_, rfl, rfl⟩
  intro s lines
  induction lines generalizing s with
  | nil =>
    intro p hp
    simpa [runDaemon] using hp
  | cons l ls ih =>
    intro p hp
    simp only [runDaemon]
    apply ih
    rcases handleLine_fst s l with hcase | hcase
    · rw [hcase]
      simp only [initialize_interrupt, List.mem_cons]
      exact Or.inr hp
    · rw [hcase]
      exact hp

/-- Witness for the amended C7: the entry stored by an initialize_interrupt is
still present after a subsequent KILL_INTERRUPT line is handled. -/
theorem daemon_state_persists_spec_witness :
    (2, 1) ∈ (runDaemon (runCmds initState [Cmd.initCmd])
        ["KILL_INTERRUPT:1:2".toList]).1.interrupt_handles :=
  daemon_state_persists_spec.1 (runCmds initState [Cmd.initCmd])
    ["KILL_INTERRUPT:1:2".toList] (2, 1) (by decide)

/-- Helper: the main loop processes a concatenation of stdin lines by
processing the two parts in order - no line ever aborts the loop. -/
theorem runDaemon_append (pre : List (List Char)) :
    ∀ (post : List (List Char)) (s : DaemonState),
      runDaemon s (pre ++ post) =
        ((runDaemon (runDaemon s pre).1 post).1,
         (runDaemon s pre).2.1 ++ (runDaemon (runDaemon s pre).1 post).2.1,
         (runDaemon s pre).2.2 ++ (runDaemon (runDaemon s pre).1 post).2.2) := by
  induction pre with
  | nil =>
    intro post s
    simp [runDaemon]
  | cons l ls ih =>
    intro post s
    simp only [List.cons_append, runDaemon, List.append_eq]
    rw [ih post (handleLine s l).1]
    simp [List.append_assoc]

/-- Claim C9: handling a stdin line never stops the loop (the output of a run
over concatenated input splits as the outputs of the two parts, whatever the
lines contain - exceptions inside the loop body are caught and logged), each
line prints at most one acknowledgement, and each successfully handled
INITIALIZE_INTERRUPT, INTERRUPT or KILL_INTERRUPT line prints exactly one
acknowledgement echoing the numeric id in the second colon-separated field. -/
theorem daemon_loop_resilient_acks (s : DaemonState) (pre post : List (List Char))
    (line : List Char) (n : Int) :
    (runDaemon s (pre ++ post)).2.1 =
        (runDaemon s pre).2.1 ++ (runDaemon (runDaemon s pre).1 post).2.1
    ∧ (handleLine s line).2.1.length ≤ 1
    ∧ (startsWithL (pyStrip line) "INITIALIZE_INTERRUPT:".toList = true →
        parseIntField (pyStrip line) 1 = some n →
        (handleLine s line).2.1 =
          ["INITIALIZE_INTERRUPT:" ++ toString n ++ ":" ++
            toString (initialize_interrupt s).2])
    ∧ (startsWithL (pyStrip line) "INITIALIZE_INTERRUPT:".toList = false →
        startsWithL (pyStrip line) "INTERRUPT:".toList = true →
        (parseIntField (pyStrip line) 2).isSome = true →
        parseIntField (pyStrip line) 1 = some n →
        (handleLine s line).2.1 = ["INTERRUPT:" ++ toString n])
    ∧ (startsWithL (pyStrip line) "INITIALIZE_INTERRUPT:".toList = false →
        startsWithL (pyStrip line) "INTERRUPT:".toList = false →
        startsWithL (pyStrip line) "KILL_INTERRUPT:".toList = true →
        (parseIntField (pyStrip line) 2).isSome = true →
        parseIntField (pyStrip line) 1 = some n →
        (handleLine s line).2.1 = ["KILL_INTERRUPT:" ++ toString n]) := by
  refine ⟨?_, ?_, ?_, ?_, ?_⟩
  · rw [runDaemon_append pre post s]
  · simp only [handleLine]
    cases h1 : startsWithL (pyStrip line) "INITIALIZE_INTERRUPT:".toList <;>
      cases h2 : startsWithL (pyStrip line) "INTERRUPT:".toList <;>
        cases h3 : startsWithL (pyStrip line) "KILL_INTERRUPT:".toList <;>
          cases hp1 : parseIntField (pyStrip line) 1 <;>
            cases hp2 : parseIntField (pyStrip line) 2 <;>
              simp [close_interrupt_handle, h1, h2, h3, hp1, hp2]
  · intro h1 hp1
    simp at h1 hp1
    simp [handleLine, h1, hp1]
  · intro h1 h2 h3 hp1
    rcases Option.isSome_iff_exists.mp h3 with ⟨v, hv⟩
    simp at h1 h2 hv hp1
    simp [handleLine, h1, h2, hv, hp1]
  · intro h1 h2 h3 h4 hp1
    rcases Option.isSome_iff_exists.mp h4 with ⟨v, hv⟩
    simp at h1 h2 h3 hv hp1
    simp [handleLine, h1, h2, h3, hv, hp1]

/-- Witness for C9: a successfully handled INTERRUPT line prints exactly the
acknowledgement echoing its numeric id 7. -/
theorem daemon_loop_resilient_acks_witness :
    (handleLine initState "INTERRUPT:7:3".toList).2.1 = ["INTERRUPT:7"] :=
  (daemon_loop_resilient_acks initState ["bogus".toList] [] "INTERRUPT:7:3".toList 7).2.2.2.1
    (by decide) (by decide) (by decide) (by decide)

end Interrupt

namespace VarInfo

/-- Claim C2 counterexample: for the 1001-character string value, the value
string produced by getValue is 1016 characters long, exceeding
maxStringLength. -/
theorem getValue_counterexample :
    ¬ ((getValue (PyValue.pystr (List.replicate 1001 'a'))).length ≤ maxStringLength) := by
  have hrepr : reprPy (PyValue.pystr (List.replicate 1001 'a')) =
      quoteChar :: (List.replicate 1001 'a' ++ [quoteChar]) := rfl
  have hlen : (reprPy (PyValue.pystr (List.replicate 1001 'a'))).length = 1003 := by
    rw [hrepr, List.length_cons, List.length_append, List.length_replicate,
      List.length_singleton]
  simp only [getValue, truncateString, maxStringLength]
  rw [hlen]
  rw [if_pos (by norm_num)]
  rw [List.length_append, List.length_append, List.length_take, hlen,
    List.length_append, List.length_replicate]
  norm_num
  omega

/-- Claim C2 amended: the value string produced by getValue is at most
maxStringLength + 2 characters long (a long repr is cut to its first
maxStringLength - 1 characters plus a three-character ellipsis) except that
for values of type str a length suffix of sizeInfoLen further characters is
appended; the truncateString of vscodeGetVariableInfo.py is always bounded by
maxStringLength + 2. -/
theorem getValue_length_bound (v : PyValue) :
    (getValue v).length ≤ maxStringLength + 2 + sizeInfoLen v
    ∧ ∀ s : List Char, (truncateStringInfo s).length ≤ maxStringLength + 2 := by
  constructor
  · simp only [getValue, truncateString]
    by_cases h : (reprPy v).length > maxStringLength
    · rw [if_pos h]
      rw [List.length_append, List.length_append, List.length_take]
      have hmin : min (maxStringLength - 1) (reprPy v).length = maxStringLength - 1 :=
        Nat.min_eq_left (by omega)
      rw [hmin]
      have hdots : "...".toList.length = 3 := rfl
      rw [hdots]
      cases v <;> · simp only [sizeInfoLen, maxStringLength]
                    simp
                    try omega
    · rw [if_neg h]
      have h2 : (reprPy v).length ≤ maxStringLength := Nat.le_of_not_lt h
      omega
  · intro s
    simp only [truncateStringInfo]
    by_cases h : s.length > maxStringLength
    · rw [if_pos h]
      rw [List.length_append, List.length_take]
      have hmin : min (maxStringLength - 1) s.length = maxStringLength - 1 :=
        Nat.min_eq_left (by omega)
      rw [hmin]
      have hdots : "...".toList.length = 3 := rfl
      rw [hdots]
      simp [maxStringLength]
    · rw [if_neg h]
      have h2 : s.length ≤ maxStringLength := Nat.le_of_not_lt h
      omega

/-- Claim C10: getChildProperty of the provider script never raises and equals
the straightforward partial traversal followChain - Option.none whenever some
step of the chain cannot be followed (an unsubscriptable non-set value on an
int step, a name that is neither an attribute nor a dict key, or a raised
exception), and the value reached by applying every step in order otherwise;
moreover whenever the info-script variant raises, the provider variant
returns None. -/
theorem getChildProperty_followChain (chain : List PyProp) :
    ∀ root : PyValue,
      getChildProperty root chain = followChain root chain
      ∧ (getChildPropertyInfo root chain = Except.error () →
          getChildProperty root chain = Option.none) := by
  induction chain with
  | nil =>
    intro root
    refine ⟨rfl, ?_⟩
    intro h
    simp [getChildPropertyInfo, goChain] at h
  | cons p rest ih =>
    intro root
    cases hs : stepEval root p with
    | ok v =>
      constructor
      · simp only [getChildProperty, goChain, followChain, hs]
        exact (ih v).1
      · intro h
        simp only [getChildPropertyInfo, goChain, hs] at h
        simp only [getChildProperty, goChain, hs]
        exact (ih v).2 h
    | noneRes =>
      constructor
      · simp only [getChildProperty, goChain, followChain, hs]
      · intro h
        simp only [getChildProperty, goChain, hs]
    | exn =>
      constructor
      · simp only [getChildProperty, goChain, followChain, hs]
      · intro h
        simp only [getChildProperty, goChain, hs]

/-- Witness for C10: indexing the empty list raises IndexError, which the
provider variant of getChildProperty converts to None. -/
theorem getChildProperty_followChain_witness :
    getChildProperty (PyValue.pylist []) [PyProp.idx 0] =
        followChain (PyValue.pylist []) [PyProp.idx 0]
    ∧ getChildProperty (PyValue.pylist []) [PyProp.idx 0] = Option.none :=
  ⟨(getChildProperty_followChain [PyProp.idx 0] (PyValue.pylist [])).1,
   (getChildProperty_followChain [PyProp.idx 0] (PyValue.pylist [])).2 rfl⟩

/-- Helper: the number of elements of range(start, stop). -/
theorem intRange_length (a b : Int) : (intRange a b).length = (b - a).toNat := by
  rw [intRange, List.length_map, List.length_range]

/-- Claim C1 counterexample: for an empty list parent (count 0) and
startIndex -10, the claimed index range from startIndex through
min(count, startIndex + arrayPageSize) - 1 has ten indices, but
_VSCODE_getAllChildrenDescriptions returns no children. -/
theorem getAllChildren_counterexample :
    getAllChildrenDescriptions [("x", PyValue.pylist [])] "x" [] (-10) = some []
    ∧ (getVariableDescription (resolveParent (PyValue.pylist []) [])).count = some 0
    ∧ intRange (-10) (min ((0 : Nat) : Int) ((-10) + (arrayPageSize : Int))) =
        [-10, -9, -8, -7, -6, -5, -4, -3, -2, -1] :=
  ⟨rfl, rfl, by decide⟩

/-- Claim C1 amended: when the resolved parent has a count n, the children
returned by _VSCODE_getAllChildrenDescriptions are exactly those at the
indices startIndex through min(n, startIndex + arrayPageSize) - 1 when n is
positive and none when n is zero, so at most arrayPageSize children are
returned. -/
theorem getAllChildren_page_bounds (gm : List (String × PyValue)) (rv : String)
    (chain : List PyProp) (startIndex : Int) (root : PyValue) (n : Nat)
    (hlk : lookupStr gm rv = some root) (hnn : isNone root = false)
    (hcount : (getVariableDescription (resolveParent root chain)).count = some n) :
    ∃ children,
      getAllChildrenDescriptions gm rv chain startIndex = some children ∧
      children.map ChildDesc.propertyChain =
        (if 0 < n then
            intRange startIndex (min (n : Int) (startIndex + (arrayPageSize : Int)))
          else []).map (fun i => chain ++ [PyProp.idx i]) ∧
      children.length ≤ arrayPageSize := by
  simp only [getAllChildrenDescriptions]
  rw [hlk]
  simp only [hnn, Bool.false_eq_true, if_false]
  simp only [hcount]
  by_cases hn : 0 < n
  · simp only [hn, if_pos]
    refine ⟨_, rfl, ?_, ?_⟩
    · simp only [List.map_map]
      rfl
    · rw [List.length_map, intRange_length]
      have hle : min (n : Int) (startIndex + (arrayPageSize : Int)) ≤
          startIndex + (arrayPageSize : Int) := min_le_right _ _
      omega
  · simp only [hn, if_neg, if_false]
    exact ⟨[], rfl, by simp [hn], by simp [arrayPageSize]⟩

/-- Witness for the amended C1: a two-element list paged from startIndex 0
yields exactly the children with indices 0 and 1. -/
theorem getAllChildren_page_bounds_witness :
    ∃ children,
      getAllChildrenDescriptions
          [("xs", PyValue.pylist [PyValue.pyint 3, PyValue.pyint 4])] "xs" [] 0 =
        some children ∧
      children.map ChildDesc.propertyChain =
        (if 0 < 2 then
            intRange 0 (min ((2 : Nat) : Int) (0 + (arrayPageSize : Int)))
          else []).map (fun i => ([] : List PyProp) ++ [PyProp.idx i]) ∧
      children.length ≤ arrayPageSize :=
  getAllChildren_page_bounds [("xs", PyValue.pylist [PyValue.pyint 3, PyValue.pyint 4])]
    "xs" [] 0 (PyValue.pylist [PyValue.pyint 3, PyValue.pyint 4]) 2 rfl rfl rfl

end VarInfo

namespace DFrame

/-- Claim C3: after _VSCODE_getDataFrameRows applies the replace dict, the
requested row slice serializes with no non-finite numeric value - the result
is the converted slice with every positive infinity cell replaced by the
string inf, every negative infinity by -inf and every NaN by nan, all other
cells untouched. -/
theorem getDataFrameRows_json_safe (df : DataFrame) (start stop : Option Int) :
    (∀ c ∈ allCells (getDataFrameRows df start stop),
        cellToJson c ≠ JVal.nonFiniteNumber)
    ∧ getDataFrameRows df start stop =
        (convertToDataFrame df start stop).map (List.map cellReplace)
    ∧ cellReplace PCell.pinf = PCell.text "inf"
    ∧ cellReplace PCell.ninf = PCell.text "-inf"
    ∧ cellReplace PCell.nanv = PCell.text "nan"
    ∧ (∀ q : ℚ, cellReplace (PCell.num q) = PCell.num q)
    ∧ (∀ s : String, cellReplace (PCell.text s) = PCell.text s) := by
  refine ⟨?_, rfl, rfl, rfl, rfl, fun q => rfl, fun s => rfl⟩
  intro c hc
  simp only [allCells, getDataFrameRows, replaceNonFinite] at hc
  rw [List.mem_flatten] at hc
  obtain ⟨row, hrow, hcrow⟩ := hc
  rw [List.mem_map] at hrow
  obtain ⟨orig, _, hor⟩ := hrow
  rw [← hor] at hcrow
  rw [List.mem_map] at hcrow
  obtain ⟨oc, _, hoc⟩ := hcrow
  rw [← hoc]
  cases oc <;> simp [cellReplace, cellToJson]

/-- Witness for C3: in a frame containing a NaN and a finite value, the first
cell of the produced slice is the string nan, which is JSON-safe. -/
theorem getDataFrameRows_json_safe_witness :
    cellToJson (PCell.text "nan") ≠ JVal.nonFiniteNumber :=
  (getDataFrameRows_json_safe [[PCell.nanv, PCell.num 1]] Option.none Option.none).1
    (PCell.text "nan") (by decide)

end DFrame

namespace EnvScript

/-- Helper: assigning a key makes lookup of that key return the new value. -/
theorem lookup_setEnv_self (env : List (String × String)) (k v : String) :
    lookupEnv (setEnv env k v) k = some v := by
  induction env with
  | nil => simp [setEnv, lookupEnv]
  | cons kv rest ih =>
    obtain ⟨k1, v1⟩ := kv
    by_cases h : k1 = k
    · simp [setEnv, h, lookupEnv]
    · simp [setEnv, h, lookupEnv, ih]

/-- Helper: assigning a key leaves lookup of every other key unchanged. -/
theorem lookup_setEnv_other (env : List (String × String)) (k v k1 : String)
    (h : k1 ≠ k) : lookupEnv (setEnv env k v) k1 = lookupEnv env k1 := by
  have h2 : ¬(k = k1) := fun hh => h hh.symm
  induction env with
  | nil => simp [setEnv, lookupEnv, h2]
  | cons kv rest ih =>
    obtain ⟨k2, v2⟩ := kv
    by_cases hk : k2 = k
    · have h3 : ¬(k2 = k1) := by rw [hk]; exact h2
      simp [setEnv, hk, lookupEnv, h2, h3]
    · simp [setEnv, hk, lookupEnv, ih]

/-- Claim C6: both scripts produce the same JSON object, namely os.environ
with PYTHONPATH set to the original value followed by a semicolon and the
sys.path entries joined by os.pathsep (just the joined entries when
PYTHONPATH was unset or empty) and every other variable untouched, and
printEnvVariablesToFile.py writes it to the file named by the last
command-line argument. -/
theorem printEnv_pythonpath (env : List (String × String)) (sysPath : List String)
    (pathsep : String) (argv : List String) (f : String) :
    lookupEnv (printEnvVariablesDict env sysPath pathsep) "PYTHONPATH" =
        some (claimedPythonPath env sysPath pathsep)
    ∧ (∀ k, k ≠ "PYTHONPATH" →
        lookupEnv (printEnvVariablesDict env sysPath pathsep) k = lookupEnv env k)
    ∧ printEnvVariablesToFileDict env sysPath pathsep =
        printEnvVariablesDict env sysPath pathsep
    ∧ (argv.getLast? = some f → printEnvVariablesToFileTarget argv = some f) := by
  refine ⟨?_, ?_, rfl, fun h => h⟩
  · rw [printEnvVariablesDict, lookup_setEnv_self]
    congr 1
    simp only [pythonPathUpdate, claimedPythonPath]
    cases hv : lookupEnv env "PYTHONPATH" with
    | none => rfl
    | some v =>
      by_cases he : v = ""
      · simp [he]
      · simp [he]
  · intro k hk
    rw [printEnvVariablesDict]
    exact lookup_setEnv_other env "PYTHONPATH" _ k hk

/-- Witness for C6: a concrete environment with PYTHONPATH set to orig and a
two-entry sys.path joined by a colon. -/
theorem printEnv_pythonpath_witness :
    lookupEnv (printEnvVariablesDict [("PYTHONPATH", "orig"), ("HOME", "/h")]
        ["/a", "/b"] ":") "PYTHONPATH" =
      some (claimedPythonPath [("PYTHONPATH", "orig"), ("HOME", "/h")] ["/a", "/b"] ":")
    ∧ lookupEnv (printEnvVariablesDict [("PYTHONPATH", "orig"), ("HOME", "/h")]
        ["/a", "/b"] ":") "HOME" =
      lookupEnv [("PYTHONPATH", "orig"), ("HOME", "/h")] "HOME"
    ∧ printEnvVariablesToFileTarget ["script.py", "out.json"] = some "out.json" :=
  ⟨(printEnv_pythonpath [("PYTHONPATH", "orig"), ("HOME", "/h")] ["/a", "/b"] ":"
      ["script.py", "out.json"] "out.json").1,
   (printEnv_pythonpath [("PYTHONPATH", "orig"), ("HOME", "/h")] ["/a", "/b"] ":"
      ["script.py", "out.json"] "out.json").2.1 "HOME" (by decide),
   (printEnv_pythonpath [("PYTHONPATH", "orig"), ("HOME", "/h")] ["/a", "/b"] ":"
      ["script.py", "out.json"] "out.json").2.2.2 rfl⟩

end EnvScript

namespace NormSel

/-- Helper: a blank line closes every open block. -/
theorem stackStep_blank (st : List Nat) : stackStep st blankLine = [] := by
  have h : stackStep st blankLine = st.filter (fun d => d < 0) := rfl
  rw [h]
  simp

/-- Helper: appended blank lines leave no block open. -/
theorem foldl_stackStep_blank (k : Nat) :
    List.foldl stackStep [] (List.replicate k blankLine) = [] := by
  induction k with
  | zero => rfl
  | succ n ih =>
    rw [List.replicate_succ, List.foldl_cons, stackStep_blank]
    exact ih

/-- Claim C4: for every snippet normalize_lines produces output with no block
left open (syntactically complete for a kernel) that ends in a newline; a
complete single-line statement comes back unchanged apart from the trailing
newline; an incomplete snippet gets one or more blank lines appended; and on
the test inputs of the repository the incomplete block and the nested
incomplete blocks get exactly their terminating blank lines. -/
theorem normalize_lines_spec :
    (∀ ls : List SrcLine,
        openDepth (outputLines ls) = 0 ∧ ∃ s, normalize_lines ls = s ++ "\n")
    ∧ (∀ b : String, opensBlock ⟨0, b⟩ = false →
        normalize_lines [⟨0, b⟩] = b ++ "\n")
    ∧ (∀ ls : List SrcLine, 0 < openDepth ls →
        ∃ k, 0 < k ∧ outputLines ls = ls ++ List.replicate k blankLine)
    ∧ normalize_lines [⟨0, "if True:"⟩] = "if True:\n\n"
    ∧ normalize_lines [⟨0, "for x in range(4):"⟩, ⟨4, "if x > 3:"⟩] =
        "for x in range(4):\n    if x > 3:\n\n\n" := by
  refine ⟨?_, ?_, ?_, by decide, by decide⟩
  · intro ls
    constructor
    · show openDepth (ls ++ List.replicate (openDepth ls) blankLine) = 0
      cases hk : openDepth ls with
      | zero =>
        rw [List.replicate_zero, List.append_nil]
        exact hk
      | succ m =>
        show (openStack (ls ++ List.replicate (m + 1) blankLine)).length = 0
        rw [openStack, List.foldl_append, List.replicate_succ, List.foldl_cons,
          stackStep_blank, foldl_stackStep_blank]
        rfl
    · exact ⟨_, rfl⟩
  · intro b hb
    have hstack : openStack [⟨0, b⟩] = [] := by
      rw [openStack, List.foldl_cons, List.foldl_nil]
      show stackStep [] ⟨0, b⟩ = []
      rw [stackStep]
      simp [hb]
    have hdepth : openDepth [⟨0, b⟩] = 0 := by
      rw [openDepth, hstack]
      rfl
    rw [normalize_lines, outputLines, hdepth, List.replicate_zero, List.append_nil]
    show String.intercalate "\n" [renderLine ⟨0, b⟩] ++ "\n" = b ++ "\n"
    congr 1
  · intro ls h
    exact ⟨openDepth ls, h, rfl⟩

/-- Witness for C4: a complete single-line print statement is returned with
just a trailing newline appended. -/
theorem normalize_lines_spec_witness :
    normalize_lines [⟨0, "x = 1"⟩] = "x = 1" ++ "\n" :=
  normalize_lines_spec.2.1 "x = 1" (by decide)

end NormSel

namespace Magics

/-- Claim C8 counterexample: OutStream.__init__ with watchfd requested on a
linux platform outside pytest runs _setup_stream_redirects and spawns the
pipe-watching thread. -/
theorem outStream_spawns_thread_counterexample :
    (outStreamInit true "linux" false).spawnsThread = true := by decide

/-- Claim C8 amended: no operation of these scripts spawns a thread except
OutStream.__init__ of vscodeMagics copy.py, which starts its watcher thread
exactly when watchfd is requested, the platform starts with linux or darwin,
and PYTEST_CURRENT_TEST is absent from the environment. -/
theorem outStream_thread_spawn_iff (watchfd : Bool) (platform : String)
    (pytest : Bool) :
    (outStreamInit watchfd platform pytest).spawnsThread = true ↔
      (watchfd = true ∧
        (Interrupt.startsWithL platform.toList "linux".toList = true ∨
          Interrupt.startsWithL platform.toList "darwin".toList = true) ∧
        pytest = false) := by
  cases watchfd <;> cases pytest <;>
    simp [outStreamInit, Bool.and_eq_true, Bool.or_eq_true]

end Magics
